import Mathlib

/-!
Verification of the stochastic collective-estimation simulator of the
Free_Rider_Memo repository (`src/freerider_memo_revised.py`,
`simulate_collective_intelligence` and its parameter tables).

The simulator's randomness (the global NumPy generator, seeded with 42 at the
start of every run) is modelled as an injected tape `g : ℕ → ℝ` of abstract
draws together with an explicit cursor: `np.random.uniform(20, 80)` consumes
one draw `u` and yields `20 + (80 - 20) * u`, `np.random.random()` consumes
one draw and yields it, and `np.random.normal(0, s)` consumes one draw `z`
(a standard-normal sample) and yields `s * z`.  The pandas summary
`results_df['accuracy']` raises `KeyError` on the empty frame produced by a
non-positive trial count; this is modelled with `Except`.  `Series.std()`
uses the `ddof = 1` sample standard deviation, which is NaN for a single
trial; the NaN is modelled as `Option.none`.
-/

namespace FreeRider

noncomputable section

/-- The three agent types of the source's `AgentType` enumeration. -/
inductive AgentType : Type
  | INTRINSIC
  | FREE_RIDER
  | OPT_OUT
deriving DecidableEq

/-- `EMPIRICAL_PARAMS['intrinsic_base_participation']`. -/
def intrinsic_base_participation : ℝ := 0.76

/-- `EMPIRICAL_PARAMS['intrinsic_incentive_participation']`. -/
def intrinsic_incentive_participation : ℝ := 0.86

/-- `EMPIRICAL_PARAMS['freerider_base_participation']`. -/
def freerider_base_participation : ℝ := 0.23

/-- `EMPIRICAL_PARAMS['freerider_incentive_participation']`. -/
def freerider_incentive_participation : ℝ := 0.63

/-- `EMPIRICAL_PARAMS['intrinsic_accuracy']`. -/
def intrinsic_accuracy : ℝ := 0.29

/-- `EMPIRICAL_PARAMS['freerider_accuracy']`. -/
def freerider_accuracy : ℝ := 0.46

/-- `EMPIRICAL_PARAMS['intrinsic_positive_bias']`. -/
def intrinsic_positive_bias : ℝ := 0.78

/-- `EMPIRICAL_PARAMS['freerider_negative_bias']`. -/
def freerider_negative_bias : ℝ := 0.82

/-- `participation_model(agent_type, has_incentive)` from the source. -/
def participation_model : AgentType → Bool → ℝ
  | .INTRINSIC, b =>
      if b then intrinsic_incentive_participation else intrinsic_base_participation
  | .FREE_RIDER, b =>
      if b then freerider_incentive_participation else freerider_base_participation
  | .OPT_OUT, _ => 0.0

/-- `accuracy_model(agent_type)` from the source. -/
def accuracy_model : AgentType → ℝ
  | .INTRINSIC => intrinsic_accuracy
  | .FREE_RIDER => freerider_accuracy
  | .OPT_OUT => 0.0

/-- `bias_model(agent_type)` from the source. -/
def bias_model : AgentType → ℝ
  | .INTRINSIC => intrinsic_positive_bias
  | .FREE_RIDER => freerider_negative_bias
  | .OPT_OUT => 0.0

/-- The stream of abstract draws produced by the seeded NumPy generator. -/
abbrev Tape := ℕ → ℝ

/-- `np.clip(x, lo, hi)`, i.e. `min(max(x, lo), hi)`. -/
def np_clip (x lo hi : ℝ) : ℝ := min (max x lo) hi

/--
One iteration of the inner per-agent loop of `simulate_collective_intelligence`
(lines 253-272 of the source): a participation draw against
`participation_model(agent_type, False)`; on success a bias draw against
`bias_model(agent_type)` selecting `+8.0` / `-2.0` (INTRINSIC) or `-6.0` /
`+1.0` (FREE_RIDER), a noise draw scaled by
`sqrt((1 - accuracy_model(agent_type)) * scale)` with `scale` 400 (INTRINSIC)
or 300 (FREE_RIDER), and a rating clipped to `[0, 100]`.  Returns the optional
rating and the new tape cursor.
-/
def agent_rating (t : AgentType) (ground_truth : ℝ) (g : Tape) (idx : ℕ) :
    Option ℝ × ℕ :=
  if g idx < participation_model t false then
    if t = .INTRINSIC then
      (some (np_clip (ground_truth + (if g (idx + 1) < bias_model t then 8.0 else -2.0)
        + Real.sqrt ((1 - accuracy_model t) * 400) * g (idx + 2)) 0 100), idx + 3)
    else
      (some (np_clip (ground_truth + (if g (idx + 1) < bias_model t then -6.0 else 1.0)
        + Real.sqrt ((1 - accuracy_model t) * 300) * g (idx + 2)) 0 100), idx + 3)
  else (none, idx + 1)

/-- `for _ in range(count)`: `count` successive per-agent draws of one type,
collecting the ratings of the agents that participate, in draw order. -/
def run_agents (t : AgentType) (ground_truth : ℝ) (g : Tape) :
    ℕ → ℕ → List ℝ × ℕ
  | 0, idx => ([], idx)
  | n + 1, idx =>
      ((match (agent_rating t ground_truth g idx).1 with
        | some r =>
            r :: (run_agents t ground_truth g n (agent_rating t ground_truth g idx).2).1
        | none => (run_agents t ground_truth g n (agent_rating t ground_truth g idx).2).1),
       (run_agents t ground_truth g n (agent_rating t ground_truth g idx).2).2)

/--
The outer loop `for agent_type, count in composition.items()` of one trial:
OPT_OUT groups and zero-count groups are skipped without consuming draws
(`continue`); Python's `range(count)` makes a negative count behave as zero,
modelled by `Int.toNat`.
-/
def collect_ratings (ground_truth : ℝ) (g : Tape) :
    List (AgentType × ℤ) → ℕ → List ℝ × ℕ
  | [], idx => ([], idx)
  | (t, c) :: rest, idx =>
      if t = .OPT_OUT ∨ c = 0 then collect_ratings ground_truth g rest idx
      else
        ((run_agents t ground_truth g c.toNat idx).1 ++
           (collect_ratings ground_truth g rest
             (run_agents t ground_truth g c.toNat idx).2).1,
         (collect_ratings ground_truth g rest
           (run_agents t ground_truth g c.toNat idx).2).2)

/-- The per-trial record appended to `results` in the source. -/
structure Trial where
  ground_truth : ℝ
  ratings : List ℝ
  collective_estimate : ℝ
  accuracy : ℝ

/--
The aggregation step of one trial (lines 274-287 of the source): either
`collective_estimate = np.mean(ratings)` with
`accuracy = 1 - abs(collective_estimate - ground_truth) / 100` when at least
one agent participated, or the degenerate fallback
`collective_estimate = 50.0`, `accuracy = 0.5` when none did.
-/
def trial_of (gt : ℝ) (rs : List ℝ) : Trial :=
  if 0 < rs.length then
    { ground_truth := gt
      ratings := rs
      collective_estimate := rs.sum / rs.length
      accuracy := 1 - |rs.sum / rs.length - gt| / 100 }
  else
    { ground_truth := gt
      ratings := rs
      collective_estimate := 50.0
      accuracy := 0.5 }

/--
One iteration of the trial loop (lines 241-287): draw
`ground_truth = np.random.uniform(20, 80)` (one tape draw `u`, yielding
`20 + (80 - 20) * u`), collect the participating ratings, and aggregate.
-/
def run_trial (comp : List (AgentType × ℤ)) (g : Tape) (idx : ℕ) : Trial × ℕ :=
  (trial_of (20 + (80 - 20) * g idx)
     (collect_ratings (20 + (80 - 20) * g idx) g comp (idx + 1)).1,
   (collect_ratings (20 + (80 - 20) * g idx) g comp (idx + 1)).2)

/-- `for sim in range(n_simulations)`: the list of trial records, in order,
together with the final tape cursor. -/
def run_trials (comp : List (AgentType × ℤ)) (g : Tape) :
    ℕ → ℕ → List Trial × ℕ
  | 0, idx => ([], idx)
  | n + 1, idx =>
      ((run_trial comp g idx).1 :: (run_trials comp g n (run_trial comp g idx).2).1,
       (run_trials comp g n (run_trial comp g idx).2).2)

/-- The summary returned by `simulate_collective_intelligence`. -/
structure SimulationResult where
  trials : List Trial
  mean_accuracy : ℝ
  std_accuracy : Option ℝ

/-- `pandas.Series.std()` with its default `ddof = 1`: NaN (modelled as
`none`) for fewer than two values, else the sample standard deviation. -/
def sample_std (xs : List ℝ) : Option ℝ :=
  if xs.length ≤ 1 then none
  else
    some (Real.sqrt
      ((xs.map fun x => (x - xs.sum / xs.length) ^ 2).sum / ((xs.length : ℝ) - 1)))

/--
`simulate_collective_intelligence(n_simulations, composition)` after the
hard-coded `np.random.seed(42)` has produced the tape `g`: run the trial
loop, then build the pandas summary.  With a non-positive trial count the
loop body never runs and `results_df['accuracy']` raises `KeyError` on the
column-less empty DataFrame, modelled as `Except.error`.
-/
def simulate_collective_intelligence (g : Tape) (comp : List (AgentType × ℤ))
    (n : ℤ) : Except String SimulationResult :=
  if ((run_trials comp g n.toNat 0).1).isEmpty then Except.error "KeyError"
  else
    Except.ok
      { trials := (run_trials comp g n.toNat 0).1
        mean_accuracy :=
          (((run_trials comp g n.toNat 0).1).map Trial.accuracy).sum /
            (((run_trials comp g n.toNat 0).1).map Trial.accuracy).length
        std_accuracy :=
          sample_std (((run_trials comp g n.toNat 0).1).map Trial.accuracy) }

/--
A full call of the source function: `np.random.seed(42)` re-seeds the global
generator, so the run always reads the stream that the generator `prng`
associates with seed 42.
-/
def np_seeded_run (prng : ℕ → Tape) (comp : List (AgentType × ℤ)) (n : ℤ) :
    Except String SimulationResult :=
  simulate_collective_intelligence (prng 42) comp n

/--
The draws that the trial loop feeds to `np.random.uniform(20, 80)` lie in
`[0, 1]`: the validity condition a real NumPy tape satisfies at the cursor
positions where a trial's ground truth is drawn.
-/
def UniformOk (g : Tape) (comp : List (AgentType × ℤ)) : ℕ → ℕ → Prop
  | 0, _ => True
  | n + 1, idx =>
      (0 ≤ g idx ∧ g idx ≤ 1) ∧ UniformOk g comp n (run_trial comp g idx).2

/-- A constant tape on which every participation draw succeeds. -/
def tape05 : Tape := fun _ => (1 : ℝ) / 2

/-- A constant tape on which every participation draw fails. -/
def tape09 : Tape := fun _ => (9 : ℝ) / 10

/-! ## Helper lemmas -/

lemma INTRINSIC_ne_OPT_OUT : (AgentType.INTRINSIC = AgentType.OPT_OUT) = False :=
  eq_false (by decide)

lemma FREE_RIDER_ne_OPT_OUT : (AgentType.FREE_RIDER = AgentType.OPT_OUT) = False :=
  eq_false (by decide)

lemma FREE_RIDER_ne_INTRINSIC : (AgentType.FREE_RIDER = AgentType.INTRINSIC) = False :=
  eq_false (by decide)

lemma INTRINSIC_eq_INTRINSIC : (AgentType.INTRINSIC = AgentType.INTRINSIC) = True :=
  eq_true rfl

lemma np_clip_bounds (x : ℝ) : 0 ≤ np_clip x 0 100 ∧ np_clip x 0 100 ≤ 100 :=
  ⟨le_min (le_max_right x 0) (by norm_num), min_le_right _ _⟩

lemma agent_rating_none (t : AgentType) (gt : ℝ) (g : Tape) (idx : ℕ)
    (h : ¬ g idx < participation_model t false) :
    agent_rating t gt g idx = (none, idx + 1) := by
  simp [agent_rating, h]

lemma agent_rating_bounds (t : AgentType) (gt : ℝ) (g : Tape) (idx : ℕ) (r : ℝ)
    (h : (agent_rating t gt g idx).1 = some r) : 0 ≤ r ∧ r ≤ 100 := by
  unfold agent_rating at h
  split_ifs at h <;> simp only [Option.some.injEq] at h <;>
    exact h ▸ np_clip_bounds _

lemma run_agents_bounds (t : AgentType) (gt : ℝ) (g : Tape) :
    ∀ (n idx : ℕ) (r : ℝ), r ∈ (run_agents t gt g n idx).1 → 0 ≤ r ∧ r ≤ 100 := by
  intro n
  induction n with
  | zero => intro idx r hr; simp [run_agents] at hr
  | succ k ih =>
      intro idx r hr
      rw [run_agents] at hr
      cases h : (agent_rating t gt g idx).1 with
      | none => rw [h] at hr; exact ih _ r hr
      | some x =>
          rw [h] at hr
          rcases List.mem_cons.1 hr with hx | hx
          · exact hx ▸ agent_rating_bounds t gt g idx x h
          · exact ih _ r hx

lemma collect_ratings_bounds (gt : ℝ) (g : Tape) :
    ∀ (comp : List (AgentType × ℤ)) (idx : ℕ) (r : ℝ),
      r ∈ (collect_ratings gt g comp idx).1 → 0 ≤ r ∧ r ≤ 100 := by
  intro comp
  induction comp with
  | nil => intro idx r hr; simp [collect_ratings] at hr
  | cons p rest ih =>
      intro idx r hr
      obtain ⟨t, c⟩ := p
      rw [collect_ratings] at hr
      split_ifs at hr
      · exact ih _ r hr
      · rcases List.mem_append.1 hr with hx | hx
        · exact run_agents_bounds t gt g _ _ r hx
        · exact ih _ r hx

lemma list_sum_le (b : ℝ) : ∀ xs : List ℝ, (∀ x ∈ xs, x ≤ b) →
    xs.sum ≤ b * xs.length := by
  intro xs
  induction xs with
  | nil => simp
  | cons y ys ih =>
      intro h
      have h1 := h y (List.mem_cons_self y ys)
      have h2 := ih fun x hx => h x (List.mem_cons_of_mem y hx)
      simp only [List.sum_cons, List.length_cons]
      push_cast
      have hb : b * ((ys.length : ℝ) + 1) = b * (ys.length : ℝ) + b := by ring
      rw [hb]
      linarith

lemma list_le_sum (a : ℝ) : ∀ xs : List ℝ, (∀ x ∈ xs, a ≤ x) →
    a * xs.length ≤ xs.sum := by
  intro xs
  induction xs with
  | nil => simp
  | cons y ys ih =>
      intro h
      have h1 := h y (List.mem_cons_self y ys)
      have h2 := ih fun x hx => h x (List.mem_cons_of_mem y hx)
      simp only [List.sum_cons, List.length_cons]
      push_cast
      have ha : a * ((ys.length : ℝ) + 1) = a * (ys.length : ℝ) + a := by ring
      rw [ha]
      linarith

lemma list_mean_bounds (a b : ℝ) (xs : List ℝ) (hne : xs ≠ [])
    (h : ∀ x ∈ xs, a ≤ x ∧ x ≤ b) :
    a ≤ xs.sum / xs.length ∧ xs.sum / xs.length ≤ b := by
  have hlen : 0 < (xs.length : ℝ) := by
    exact_mod_cast List.length_pos.2 hne
  constructor
  · rw [le_div_iff₀ hlen]
    exact list_le_sum a xs fun x hx => (h x hx).1
  · rw [div_le_iff₀ hlen]
    exact list_sum_le b xs fun x hx => (h x hx).2

lemma run_trials_length (comp : List (AgentType × ℤ)) (g : Tape) :
    ∀ n idx, ((run_trials comp g n idx).1).length = n := by
  intro n
  induction n with
  | zero => intro idx; rfl
  | succ k ih => intro idx; simp [run_trials, ih]

lemma trial_of_accuracy_bounds (gt : ℝ) (rs : List ℝ)
    (hgt1 : 20 ≤ gt) (hgt2 : gt ≤ 80)
    (hrs : ∀ x ∈ rs, 0 ≤ x ∧ x ≤ 100) :
    0.2 ≤ (trial_of gt rs).accuracy ∧ (trial_of gt rs).accuracy ≤ 1 := by
  unfold trial_of
  split_ifs with hlen
  · have hne : rs ≠ [] := by
      intro hnil
      rw [hnil] at hlen
      simp at hlen
    have hb := list_mean_bounds 0 100 rs hne hrs
    have habs : |rs.sum / rs.length - gt| ≤ 80 := by
      rw [abs_le]
      constructor <;> linarith [hb.1, hb.2]
    have habs0 : 0 ≤ |rs.sum / rs.length - gt| := abs_nonneg _
    constructor <;> simp only [] <;> [linarith; linarith]
  · constructor <;> norm_num

lemma run_trial_accuracy_bounds (comp : List (AgentType × ℤ)) (g : Tape) (idx : ℕ)
    (h0 : 0 ≤ g idx) (h1 : g idx ≤ 1) :
    0.2 ≤ (run_trial comp g idx).1.accuracy ∧ (run_trial comp g idx).1.accuracy ≤ 1 := by
  have hgt1 : (20 : ℝ) ≤ 20 + (80 - 20) * g idx := by nlinarith
  have hgt2 : 20 + (80 - 20) * g idx ≤ (80 : ℝ) := by nlinarith
  exact trial_of_accuracy_bounds _ _ hgt1 hgt2
    (fun x hx => collect_ratings_bounds _ g comp (idx + 1) x hx)

lemma run_trials_accuracy_bounds (comp : List (AgentType × ℤ)) (g : Tape) :
    ∀ n idx, UniformOk g comp n idx →
      ∀ tr ∈ (run_trials comp g n idx).1, 0.2 ≤ tr.accuracy ∧ tr.accuracy ≤ 1 := by
  intro n
  induction n with
  | zero => intro idx _ tr htr; simp [run_trials] at htr
  | succ k ih =>
      intro idx hU tr htr
      rw [run_trials] at htr
      rcases List.mem_cons.1 htr with hx | hx
      · exact hx ▸ run_trial_accuracy_bounds comp g idx hU.1.1 hU.1.2
      · exact ih _ hU.2 tr hx

lemma uniformOk_of_bounded (g : Tape) (comp : List (AgentType × ℤ))
    (h : ∀ i, 0 ≤ g i ∧ g i ≤ 1) : ∀ n idx, UniformOk g comp n idx := by
  intro n
  induction n with
  | zero => intro idx; trivial
  | succ k ih => intro idx; exact ⟨h idx, ih _⟩

lemma participation_model_eq_zero (t : AgentType)
    (h : participation_model t false = 0) : t = AgentType.OPT_OUT := by
  cases t
  · exact absurd h (by norm_num [participation_model, intrinsic_base_participation])
  · exact absurd h (by norm_num [participation_model, freerider_base_participation])
  · rfl

lemma collect_ratings_no_participants (gt : ℝ) (g : Tape) :
    ∀ (comp : List (AgentType × ℤ)) (idx : ℕ),
      (∀ p ∈ comp, 0 < p.2 → participation_model p.1 false = 0) →
      collect_ratings gt g comp idx = ([], idx) := by
  intro comp
  induction comp with
  | nil => intro idx _; rfl
  | cons p rest ih =>
      intro idx h
      obtain ⟨t, c⟩ := p
      have hrest : ∀ q ∈ rest, 0 < q.2 → participation_model q.1 false = 0 :=
        fun q hq => h q (List.mem_cons_of_mem _ hq)
      by_cases hskip : t = AgentType.OPT_OUT ∨ c = 0
      · rw [collect_ratings, if_pos hskip]
        exact ih idx hrest
      · push_neg at hskip
        have hcneg : c < 0 := by
          rcases lt_trichotomy c 0 with hlt | heq | hpos
          · exact hlt
          · exact absurd heq hskip.2
          · exact absurd
              (participation_model_eq_zero t (h (t, c) (List.mem_cons_self _ _) hpos))
              hskip.1
        have htoNat : c.toNat = 0 := Int.toNat_of_nonpos (le_of_lt hcneg)
        rw [collect_ratings, if_neg (not_or.mpr ⟨hskip.1, hskip.2⟩), htoNat]
        simp [run_agents, ih idx hrest]

lemma run_trials_ne_nil (comp : List (AgentType × ℤ)) (g : Tape) (n : ℤ)
    (hn : 1 ≤ n) : (run_trials comp g n.toNat 0).1 ≠ [] := by
  intro hnil
  have hlen := run_trials_length comp g n.toNat 0
  rw [hnil] at hlen
  simp at hlen
  omega

lemma simulate_pos_eq (g : Tape) (comp : List (AgentType × ℤ)) (n : ℤ)
    (hn : 1 ≤ n) :
    simulate_collective_intelligence g comp n = Except.ok
      { trials := (run_trials comp g n.toNat 0).1
        mean_accuracy :=
          (((run_trials comp g n.toNat 0).1).map Trial.accuracy).sum /
            (((run_trials comp g n.toNat 0).1).map Trial.accuracy).length
        std_accuracy :=
          sample_std (((run_trials comp g n.toNat 0).1).map Trial.accuracy) } := by
  rw [simulate_collective_intelligence,
    if_neg (by simp [List.isEmpty_iff, run_trials_ne_nil comp g n hn])]

lemma mean_accuracy_bounds (g : Tape) (comp : List (AgentType × ℤ)) (n : ℤ)
    (hn : 1 ≤ n) (hU : UniformOk g comp n.toNat 0) :
    0.2 ≤ (((run_trials comp g n.toNat 0).1).map Trial.accuracy).sum /
        (((run_trials comp g n.toNat 0).1).map Trial.accuracy).length ∧
      (((run_trials comp g n.toNat 0).1).map Trial.accuracy).sum /
        (((run_trials comp g n.toNat 0).1).map Trial.accuracy).length ≤ 1 := by
  have hmem : ∀ a ∈ ((run_trials comp g n.toNat 0).1).map Trial.accuracy,
      0.2 ≤ a ∧ a ≤ 1 := by
    intro a ha
    rcases List.mem_map.1 ha with ⟨tr, htr, rfl⟩
    exact run_trials_accuracy_bounds comp g n.toNat 0 hU tr htr
  have hmapne : ((run_trials comp g n.toNat 0).1).map Trial.accuracy ≠ [] := by
    simp [run_trials_ne_nil comp g n hn]
  exact list_mean_bounds 0.2 1 _ hmapne hmem

/-! ## Claims -/

/--
Claim C1: for every trial in which the participating ratings are non-empty,
the collective estimate equals the arithmetic mean of the participating
ratings, and the trial's accuracy equals
`1 - |collective_estimate - ground_truth| / 100`.
-/
theorem trial_aggregation_is_mean (comp : List (AgentType × ℤ)) (g : Tape)
    (idx : ℕ) (h : (run_trial comp g idx).1.ratings ≠ []) :
    (run_trial comp g idx).1.collective_estimate =
      (run_trial comp g idx).1.ratings.sum /
        (run_trial comp g idx).1.ratings.length ∧
    (run_trial comp g idx).1.accuracy =
      1 - |(run_trial comp g idx).1.collective_estimate -
            (run_trial comp g idx).1.ground_truth| / 100 := by
  unfold run_trial trial_of at h ⊢
  split_ifs at h ⊢ with hlen
  · exact ⟨rfl, rfl⟩
  · dsimp only at h
    exact absurd (List.length_pos.2 h) hlen

/-- Witness for C1 on a concrete run: one intrinsic agent participates. -/
theorem trial_aggregation_is_mean_witness :
    (run_trial [(AgentType.INTRINSIC, 1)] tape05 0).1.collective_estimate =
      (run_trial [(AgentType.INTRINSIC, 1)] tape05 0).1.ratings.sum /
        (run_trial [(AgentType.INTRINSIC, 1)] tape05 0).1.ratings.length ∧
    (run_trial [(AgentType.INTRINSIC, 1)] tape05 0).1.accuracy =
      1 - |(run_trial [(AgentType.INTRINSIC, 1)] tape05 0).1.collective_estimate -
            (run_trial [(AgentType.INTRINSIC, 1)] tape05 0).1.ground_truth| / 100 :=
  trial_aggregation_is_mean [(AgentType.INTRINSIC, 1)] tape05 0
    (by norm_num [run_trial, trial_of, collect_ratings, run_agents, agent_rating,
      participation_model, bias_model, accuracy_model, intrinsic_base_participation,
      intrinsic_positive_bias, tape05, INTRINSIC_ne_OPT_OUT, INTRINSIC_eq_INTRINSIC])

/--
Claim C2: a trial with no participating ratings yields collective estimate
`50.0` and accuracy `0.5`; moreover for a composition whose included
(positive-count) types all have participation rate `0`, every trial of every
simulation yields collective estimate `50.0` and accuracy `0.5`.
-/
theorem degenerate_trial_policy :
    (∀ (comp : List (AgentType × ℤ)) (g : Tape) (idx : ℕ),
        (run_trial comp g idx).1.ratings = [] →
        (run_trial comp g idx).1.collective_estimate = 50.0 ∧
        (run_trial comp g idx).1.accuracy = 0.5) ∧
    (∀ (comp : List (AgentType × ℤ)) (g : Tape) (n idx : ℕ),
        (∀ p ∈ comp, 0 < p.2 → participation_model p.1 false = 0) →
        ∀ tr ∈ (run_trials comp g n idx).1,
          tr.collective_estimate = 50.0 ∧ tr.accuracy = 0.5) := by
  constructor
  · intro comp g idx h
    unfold run_trial trial_of at h ⊢
    split_ifs at h ⊢ with hlen
    · dsimp only at h
      rw [h] at hlen
      simp at hlen
    · exact ⟨rfl, rfl⟩
  · intro comp g n
    induction n with
    | zero => intro idx _ tr htr; simp [run_trials] at htr
    | succ k ih =>
        intro idx h tr htr
        rw [run_trials] at htr
        rcases List.mem_cons.1 htr with hx | hx
        · subst hx
          unfold run_trial trial_of
          rw [collect_ratings_no_participants _ g comp (idx + 1) h]
          norm_num
        · exact ih _ h tr hx

/-- Witness for C2 on a concrete run: an all-OPT_OUT composition. -/
theorem degenerate_trial_policy_witness :
    (run_trial [(AgentType.OPT_OUT, 3)] tape05 0).1.collective_estimate = 50.0 ∧
    (run_trial [(AgentType.OPT_OUT, 3)] tape05 0).1.accuracy = 0.5 :=
  degenerate_trial_policy.1 [(AgentType.OPT_OUT, 3)] tape05 0
    (by norm_num [run_trial, trial_of, collect_ratings])

/--
Claim C3: a participating agent's rating is the ground truth plus a bias
offset plus the scaled Gaussian noise draw, clipped to `[0, 100]`; an
INTRINSIC agent's offset is `+8.0` when its bias Bernoulli (probability
`0.78`) succeeds and `-2.0` otherwise, with noise standard deviation
`sqrt((1 - 0.29) * 400)`; a FREE_RIDER agent's offset is `-6.0` when its bias
Bernoulli (probability `0.82`) succeeds and `+1.0` otherwise, with noise
standard deviation `sqrt((1 - 0.46) * 300)`.
-/
theorem participating_agent_rating_formula (gt : ℝ) (g : Tape) (idx : ℕ) :
    (g idx < participation_model AgentType.INTRINSIC false →
      (g (idx + 1) < 0.78 →
        agent_rating AgentType.INTRINSIC gt g idx =
          (some (np_clip (gt + 8.0 + Real.sqrt ((1 - 0.29) * 400) * g (idx + 2)) 0 100),
           idx + 3)) ∧
      (¬ g (idx + 1) < 0.78 →
        agent_rating AgentType.INTRINSIC gt g idx =
          (some (np_clip (gt + -2.0 + Real.sqrt ((1 - 0.29) * 400) * g (idx + 2)) 0 100),
           idx + 3))) ∧
    (g idx < participation_model AgentType.FREE_RIDER false →
      (g (idx + 1) < 0.82 →
        agent_rating AgentType.FREE_RIDER gt g idx =
          (some (np_clip (gt + -6.0 + Real.sqrt ((1 - 0.46) * 300) * g (idx + 2)) 0 100),
           idx + 3)) ∧
      (¬ g (idx + 1) < 0.82 →
        agent_rating AgentType.FREE_RIDER gt g idx =
          (some (np_clip (gt + 1.0 + Real.sqrt ((1 - 0.46) * 300) * g (idx + 2)) 0 100),
           idx + 3))) := by
  refine ⟨fun hp => ⟨fun hb => ?_, fun hb => ?_⟩,
          fun hp => ⟨fun hb => ?_, fun hb => ?_⟩⟩ <;>
    simp [agent_rating, hp, hb, bias_model, accuracy_model,
      intrinsic_positive_bias, freerider_negative_bias, intrinsic_accuracy,
      freerider_accuracy, INTRINSIC_eq_INTRINSIC, FREE_RIDER_ne_INTRINSIC]

/-- Witness for C3: a participating intrinsic agent with a successful bias
draw on a concrete tape. -/
theorem participating_agent_rating_formula_witness :
    agent_rating AgentType.INTRINSIC 50 tape05 0 =
      (some (np_clip (50 + 8.0 + Real.sqrt ((1 - 0.29) * 400) * tape05 (0 + 2)) 0 100),
       0 + 3) :=
  ((participating_agent_rating_formula 50 tape05 0).1
      (by norm_num [tape05, participation_model, intrinsic_base_participation])).1
    (by norm_num [tape05])

/--
Claim C4 (amended): for every composition, every tape whose ground-truth
draws are valid uniform samples, and every positive trial count, the
simulation succeeds and its mean accuracy lies in `[0, 1]`; its accuracy
standard deviation is defined and non-negative whenever at least two trials
run.  (As literally stated the claim fails at exactly one trial, where the
`ddof = 1` standard deviation is pandas' NaN - see the counterexample.)
-/
theorem summary_statistic_bounds (g : Tape) (comp : List (AgentType × ℤ))
    (n : ℤ) (hn : 1 ≤ n) (hU : UniformOk g comp n.toNat 0) :
    ∃ r, simulate_collective_intelligence g comp n = Except.ok r ∧
      0 ≤ r.mean_accuracy ∧ r.mean_accuracy ≤ 1 ∧
      (2 ≤ n → ∃ s, r.std_accuracy = some s ∧ 0 ≤ s) := by
  rw [simulate_pos_eq g comp n hn]
  have hmean := mean_accuracy_bounds g comp n hn hU
  refine ⟨_, rfl, by linarith [hmean.1], hmean.2, fun h2 => ?_⟩
  have hlen : ((run_trials comp g n.toNat 0).1).length = n.toNat :=
    run_trials_length comp g n.toNat 0
  rw [sample_std, if_neg (by simp [hlen]; omega)]
  exact ⟨_, rfl, Real.sqrt_nonneg _⟩

/-- Witness for the amended C4 at a concrete two-trial run. -/
theorem summary_statistic_bounds_witness :
    ∃ r, simulate_collective_intelligence tape05 [(AgentType.OPT_OUT, 1)] 2 =
        Except.ok r ∧
      0 ≤ r.mean_accuracy ∧ r.mean_accuracy ≤ 1 ∧
      (2 ≤ (2 : ℤ) → ∃ s, r.std_accuracy = some s ∧ 0 ≤ s) :=
  summary_statistic_bounds tape05 [(AgentType.OPT_OUT, 1)] 2 (by norm_num)
    (uniformOk_of_bounded tape05 _ (fun i => by norm_num [tape05]) _ _)

/--
Counterexample to C4 as literally stated: with trial count 1 (a positive
trial count) the simulation succeeds, but its accuracy standard deviation is
pandas' NaN (modelled as `none`), so it is not a value `≥ 0`.
-/
theorem std_dev_undefined_at_single_trial :
    ∃ r, simulate_collective_intelligence tape09 [(AgentType.INTRINSIC, 1)] 1 =
        Except.ok r ∧ r.std_accuracy = none := by
  norm_num [simulate_collective_intelligence, run_trials, run_trial, trial_of,
    collect_ratings, run_agents, agent_rating, participation_model,
    intrinsic_base_participation, tape09, sample_std, INTRINSIC_ne_OPT_OUT,
    INTRINSIC_eq_INTRINSIC]

/--
Claim C5: determinism - a run re-seeds the global generator with the
hard-coded seed 42, so its output is a function of the seed-42 stream alone:
any two generators agreeing on that stream give identical results (trial
lists, hence per-trial ground truths and per-agent ratings, and both summary
statistics), and the simulation reads nothing beyond the injected stream's
values.
-/
theorem same_seed_identical_runs :
    (∀ (prng prng2 : ℕ → Tape) (comp : List (AgentType × ℤ)) (n : ℤ),
        (∀ i, prng 42 i = prng2 42 i) →
        np_seeded_run prng comp n = np_seeded_run prng2 comp n) ∧
    (∀ (g1 g2 : Tape) (comp : List (AgentType × ℤ)) (n : ℤ),
        (∀ i, g1 i = g2 i) →
        simulate_collective_intelligence g1 comp n =
          simulate_collective_intelligence g2 comp n) := by
  have hext : ∀ (g1 g2 : Tape) (comp : List (AgentType × ℤ)) (n : ℤ),
      (∀ i, g1 i = g2 i) →
      simulate_collective_intelligence g1 comp n =
        simulate_collective_intelligence g2 comp n := by
    intro g1 g2 comp n h
    rw [funext h]
  refine ⟨fun prng prng2 comp n h => ?_, hext⟩
  unfold np_seeded_run
  exact hext _ _ comp n h

/-- Witness for C5 at a concrete tape, composition, and trial count. -/
theorem same_seed_identical_runs_witness :
    simulate_collective_intelligence tape05 [(AgentType.INTRINSIC, 1)] 1 =
      simulate_collective_intelligence tape05 [(AgentType.INTRINSIC, 1)] 1 :=
  same_seed_identical_runs.2 tape05 tape05 [(AgentType.INTRINSIC, 1)] 1
    fun _ => rfl

/--
Claim C6, code behaviour at the failing inputs: the source performs no
`n_trials` validation; with `n_trials = 0` (or negative) the trial loop body
never runs and the summary stage raises pandas' `KeyError` on the column-less
empty DataFrame - no `InvalidTrialCount` error is ever reported.
-/
theorem no_trial_count_validation :
    simulate_collective_intelligence tape05
        [(AgentType.INTRINSIC, 10), (AgentType.FREE_RIDER, 5)] 0 =
      Except.error "KeyError" ∧
    simulate_collective_intelligence tape05
        [(AgentType.INTRINSIC, 10), (AgentType.FREE_RIDER, 5)] (-3) =
      Except.error "KeyError" := by
  constructor <;> rfl

/--
Claim C7, code behaviour at the failing inputs: the source performs no
composition validation; a composition with zero total agents, or one with a
negative count (Python's `range` silently treats it as zero), runs to
completion - every trial falls back to the degenerate estimate and the
summary reports mean accuracy `0.5` - instead of reporting an
`InvalidComposition` error.
-/
theorem no_composition_validation :
    (∃ r, simulate_collective_intelligence tape05
        [(AgentType.INTRINSIC, 0), (AgentType.FREE_RIDER, 0)] 2 = Except.ok r ∧
        r.mean_accuracy = 0.5) ∧
    (∃ r, simulate_collective_intelligence tape05 [(AgentType.INTRINSIC, -4)] 2 =
        Except.ok r ∧ r.mean_accuracy = 0.5) := by
  constructor <;>
    norm_num [simulate_collective_intelligence, run_trials, run_trial, trial_of,
      collect_ratings, run_agents, INTRINSIC_ne_OPT_OUT, FREE_RIDER_ne_OPT_OUT,
      tape05, sample_std, (show ((-4 : ℤ)).toNat = 0 from rfl)]

/--
Claim C8: the number of tape draws an agent consumes is fixed by the branch
taken, between 0 and 3 - an OPT_OUT group is skipped without consuming any
draw and contributes no rating; a non-OPT_OUT agent whose participation draw
fails consumes exactly one draw and contributes no rating; a participating
agent consumes exactly three draws (participation at the cursor, then bias,
then noise) and contributes a rating.
-/
theorem deterministic_draw_consumption (t : AgentType) (gt : ℝ) (g : Tape)
    (idx : ℕ) (c : ℤ) (rest : List (AgentType × ℤ)) :
    collect_ratings gt g ((AgentType.OPT_OUT, c) :: rest) idx =
      collect_ratings gt g rest idx ∧
    (¬ g idx < participation_model t false →
      agent_rating t gt g idx = (none, idx + 1)) ∧
    (g idx < participation_model t false →
      (agent_rating t gt g idx).2 = idx + 3 ∧
      ∃ r, (agent_rating t gt g idx).1 = some r) := by
  refine ⟨?_, fun h => agent_rating_none t gt g idx h, fun h => ?_⟩
  · rw [collect_ratings]
    simp
  · unfold agent_rating
    rw [if_pos h]
    split_ifs <;> exact ⟨rfl, _, rfl⟩

/-- Witness for C8: one skipped OPT_OUT group, one failed participation draw,
one participating agent, all on concrete tapes. -/
theorem deterministic_draw_consumption_witness :
    collect_ratings 50 tape05 [(AgentType.OPT_OUT, 7)] 0 =
      collect_ratings 50 tape05 [] 0 ∧
    agent_rating AgentType.INTRINSIC 50 tape09 0 = (none, 0 + 1) ∧
    ((agent_rating AgentType.INTRINSIC 50 tape05 0).2 = 0 + 3 ∧
      ∃ r, (agent_rating AgentType.INTRINSIC 50 tape05 0).1 = some r) :=
  ⟨(deterministic_draw_consumption AgentType.INTRINSIC 50 tape05 0 7 []).1,
   (deterministic_draw_consumption AgentType.INTRINSIC 50 tape09 0 7 []).2.1
     (by norm_num [tape09, participation_model, intrinsic_base_participation]),
   (deterministic_draw_consumption AgentType.INTRINSIC 50 tape05 0 7 []).2.2
     (by norm_num [tape05, participation_model, intrinsic_base_participation])⟩

/--
Claim C10: every trial's accuracy lies in `[0.2, 1]` - the ground truth is
drawn from `[20, 80]` and every rating is clipped to `[0, 100]`, so the
collective estimate is at most 80 away from the ground truth, while the
degenerate fallback gives `0.5` - and consequently the mean accuracy of
every simulation with at least one trial is at least `0.2`.
-/
theorem accuracy_at_least_one_fifth (g : Tape) (comp : List (AgentType × ℤ)) :
    (∀ (n idx : ℕ), UniformOk g comp n idx →
        ∀ tr ∈ (run_trials comp g n idx).1,
          0.2 ≤ tr.accuracy ∧ tr.accuracy ≤ 1) ∧
    (∀ n : ℤ, 1 ≤ n → UniformOk g comp n.toNat 0 →
        ∃ r, simulate_collective_intelligence g comp n = Except.ok r ∧
          0.2 ≤ r.mean_accuracy) := by
  refine ⟨fun n idx hU => run_trials_accuracy_bounds comp g n idx hU,
          fun n hn hU => ?_⟩
  rw [simulate_pos_eq g comp n hn]
  exact ⟨_, rfl, (mean_accuracy_bounds g comp n hn hU).1⟩

/-- Witness for C10 at a concrete one-trial run. -/
theorem accuracy_at_least_one_fifth_witness :
    ∃ r, simulate_collective_intelligence tape05 [(AgentType.OPT_OUT, 1)] 1 =
        Except.ok r ∧ 0.2 ≤ r.mean_accuracy :=
  (accuracy_at_least_one_fifth tape05 [(AgentType.OPT_OUT, 1)]).2 1 (by norm_num)
    (uniformOk_of_bounded tape05 _ (fun i => by norm_num [tape05]) _ _)

end

end FreeRider
